import Mathlib

/-!
Verification of the session relay and state-management engine of the
ruthie-voicebot repository, against a shallow Lean embedding of its
Python source (`app/n8n_client.py`, `app/conversation_context.py`,
`app/tts_sanitizer.py`, `app/inbound_deepgram.py`, `app/browser_ws.py`).

Each embedded definition mirrors one Python function; theorems settle the
specification claims about them.
-/

namespace N8nClient

/-! ## Action Dispatcher (`app/n8n_client.py`, `call_n8n_action`)

The gateway is modelled as a function from the attempt index to the
response observed on that attempt: either an HTTP response (status code,
parsed JSON body, raw text) or a transport-level error (a raised
`httpx.TimeoutException` or other exception, carrying its message). -/

/-- Retry configuration constants from `n8n_client.py`. -/
def MAX_RETRIES : Nat := 3

def BASE_DELAY_MS : Nat := 500

def MAX_DELAY_MS : Nat := 2000

/-- What the gateway does on one attempt: an HTTP response with a status
code, JSON body and raw text, or a transport error with a message. -/
inductive GatewayResponse where
  | http (status : Nat) (body : String) (text : String)
  | transportError (msg : String)
deriving DecidableEq, Repr

/-- The envelope returned by `call_n8n_action`: the Python dict with keys
`success`, `action`, and (depending on the branch) `data`, `error`,
`details`, `last_error`, `attempts`. Absent keys are `none`. -/
structure ActionResult where
  success : Bool
  action : String
  data : Option String := none
  error : Option String := none
  details : Option String := none
  last_error : Option String := none
  attempts : Nat
deriving DecidableEq, Repr

/-- The backoff delay (in ms) computed before a retry at a given attempt
index: `min(BASE_DELAY_MS * (2 ** attempt), MAX_DELAY_MS)`. -/
def retryDelayMs (attempt : Nat) : Nat :=
  min (BASE_DELAY_MS * 2 ^ attempt) MAX_DELAY_MS

/-- Whether a gateway response takes one of the retryable branches of the
loop body (HTTP 429, HTTP >= 500, or a transport error). -/
def retryable : GatewayResponse → Bool
  | .http status _ _ => !(status = 200 || status = 201) && (status = 429 || 500 ≤ status)
  | .transportError _ => true

/-- The `for attempt in range(MAX_RETRIES)` loop of `call_n8n_action`.
`fuel` is the number of attempts remaining, `attempt` the current index,
`last_error` the accumulator only transport errors write to.  Besides the
result it returns the list of backoff delays slept (in ms), in order. -/
def callLoop (gateway : Nat → GatewayResponse) (action : String) :
    Nat → Nat → Option String → ActionResult × List Nat
  | 0, _, lastError =>
      -- All retries exhausted.
      ({ success := false, action := action, error := some "Max retries exceeded",
         last_error := lastError, attempts := MAX_RETRIES }, [])
  | fuel + 1, attempt, lastError =>
      match gateway attempt with
      | .http status body text =>
          if status = 200 || status = 201 then
            ({ success := true, action := action, data := some body,
               attempts := attempt + 1 }, [])
          else if status = 429 || 500 ≤ status then
            -- Rate limited / server error: sleep with backoff and retry.
            let rest := callLoop gateway action fuel (attempt + 1) lastError
            (rest.1, retryDelayMs attempt :: rest.2)
          else
            -- Client error (4xx except 429): do not retry.
            ({ success := false, action := action,
               error := some ("Client error: " ++ toString status),
               details := some text, attempts := attempt + 1 }, [])
      | .transportError msg =>
          let rest := callLoop gateway action fuel (attempt + 1) (some msg)
          (rest.1, retryDelayMs attempt :: rest.2)

/-- `call_n8n_action`, given the gateway's behaviour per attempt. -/
def call_n8n_action (gateway : Nat → GatewayResponse) (action : String) :
    ActionResult × List Nat :=
  callLoop gateway action MAX_RETRIES 0 none

/-- How one attempt's outcome updates the `last_error` accumulator: only a
transport error (an exception in the Python) overwrites it. -/
def nextLastError (r : GatewayResponse) (le : Option String) : Option String :=
  match r with
  | .transportError msg => some msg
  | .http _ _ _ => le

/-- The last transport-error message among attempts `< n` (the value of the
Python `last_error` variable after those attempts all failed). -/
def lastTransportError (gateway : Nat → GatewayResponse) : Nat → Option String
  | 0 => none
  | n + 1 => nextLastError (gateway n) (lastTransportError gateway n)

lemma callLoop_retry_step (g : Nat → GatewayResponse) (a : String)
    (fuel attempt : Nat) (le : Option String) (h : retryable (g attempt) = true) :
    callLoop g a (fuel + 1) attempt le =
      ((callLoop g a fuel (attempt + 1) (nextLastError (g attempt) le)).1,
        retryDelayMs attempt ::
          (callLoop g a fuel (attempt + 1) (nextLastError (g attempt) le)).2) := by
  rcases hg : g attempt with ⟨s, b, t⟩ | m
  · rw [hg] at h
    simp only [retryable, Bool.and_eq_true, Bool.not_eq_true'] at h
    simp [callLoop, hg, nextLastError, h.1, h.2]
  · simp [callLoop, hg, nextLastError]

lemma callLoop_delays_plan (g : Nat → GatewayResponse) (a : String) :
    ∀ fuel attempt le, (callLoop g a fuel attempt le).2 <+:
      (List.range fuel).map (fun i => retryDelayMs (attempt + i)) := by
  intro fuel
  induction fuel with
  | zero => intro attempt le; simp [callLoop]
  | succ n ih =>
      intro attempt le
      have hrange : (List.range (n + 1)).map (fun i => retryDelayMs (attempt + i)) =
          retryDelayMs attempt ::
            (List.range n).map (fun i => retryDelayMs (attempt + 1 + i)) := by
        rw [List.range_succ_eq_map, List.map_cons, List.map_map]
        refine congrArg₂ List.cons (by simp) (List.map_congr_left fun i _ => ?_)
        simp only [Function.comp_apply]
        congr 1
        omega
      rcases hg : g attempt with ⟨s, b, t⟩ | m
      · by_cases h200 : (s = 200 || s = 201) = true
        · simp [callLoop, hg, h200]
        · by_cases h429 : (s = 429 || decide (500 ≤ s)) = true
          · have : (callLoop g a (n + 1) attempt le).2 =
                retryDelayMs attempt :: (callLoop g a n (attempt + 1) le).2 := by
              simp [callLoop, hg, h200, h429]
            rw [this, hrange, List.cons_prefix_cons]
            exact ⟨rfl, ih (attempt + 1) le⟩
          · simp [callLoop, hg, h200, h429]
      · have : (callLoop g a (n + 1) attempt le).2 =
            retryDelayMs attempt :: (callLoop g a n (attempt + 1) (some m)).2 := by
          simp [callLoop, hg]
        rw [this, hrange, List.cons_prefix_cons]
        exact ⟨rfl, ih (attempt + 1) (some m)⟩

lemma callLoop_attempts_le (g : Nat → GatewayResponse) (a : String) :
    ∀ fuel attempt le, attempt + fuel = MAX_RETRIES →
      (callLoop g a fuel attempt le).1.attempts ≤ MAX_RETRIES := by
  intro fuel
  induction fuel with
  | zero => intro attempt le _; simp [callLoop]
  | succ n ih =>
      intro attempt le hsum
      rcases hg : g attempt with ⟨s, b, t⟩ | m
      · by_cases h200 : (s = 200 || s = 201) = true
        · simp [callLoop, hg, h200]
          omega
        · by_cases h429 : (s = 429 || decide (500 ≤ s)) = true
          · simpa [callLoop, hg, h200, h429] using ih (attempt + 1) le (by omega)
          · simp [callLoop, hg, h200, h429]
            omega
      · simpa [callLoop, hg] using ih (attempt + 1) (some m) (by omega)

/-- C1 (amended).  The dispatcher's per-status policy: HTTP 200 or 201 on
the first attempt returns success immediately with `attempts == 1`; any
other first-attempt status that is neither 429 nor ≥ 500 (so every other
4xx — and also every other 2xx/3xx, which is where the claim's "2xx"
wording fails) returns a failure envelope immediately with `attempts == 1`
and no retry; every backoff delay slept is `min(base_delay * 2^attempt,
max_delay)` for its attempt index and at most `MAX_RETRIES` attempts are
made; and a gateway answering 500, 500, then 200 yields success with
`attempts == 3` after backoffs of 500 ms and 1000 ms. -/
theorem dispatch_retry_policy (g : Nat → GatewayResponse) (action : String) :
    (∀ s b t, g 0 = .http s b t → (s = 200 ∨ s = 201) →
      call_n8n_action g action =
        ({ success := true, action := action, data := some b, attempts := 1 }, []))
    ∧
    (∀ s b t, g 0 = .http s b t → ¬(s = 200 ∨ s = 201) → ¬(s = 429 ∨ 500 ≤ s) →
      call_n8n_action g action =
        ({ success := false, action := action,
           error := some ("Client error: " ++ toString s),
           details := some t, attempts := 1 }, []))
    ∧
    ((call_n8n_action g action).2 <+: [retryDelayMs 0, retryDelayMs 1, retryDelayMs 2]
      ∧ (call_n8n_action g action).1.attempts ≤ MAX_RETRIES)
    ∧
    (∀ b0 t0 b1 t1 b t, g 0 = .http 500 b0 t0 → g 1 = .http 500 b1 t1 →
      g 2 = .http 200 b t →
      call_n8n_action g action =
        ({ success := true, action := action, data := some b, attempts := 3 },
          [500, 1000])) := by
  refine ⟨?_, ?_, ⟨?_, ?_⟩, ?_⟩
  · intro s b t hg hs
    have : (s = 200 || s = 201) = true := by
      rcases hs with h | h <;> simp [h]
    simp [call_n8n_action, MAX_RETRIES, callLoop, hg, this]
  · intro s b t hg hs h429
    have h1 : (s = 200 || s = 201) = false := by
      simp only [Bool.or_eq_false_iff, decide_eq_false_iff_not]
      exact ⟨fun h => hs (Or.inl h), fun h => hs (Or.inr h)⟩
    have h2 : (s = 429 || decide (500 ≤ s)) = false := by
      simp only [Bool.or_eq_false_iff, decide_eq_false_iff_not]
      exact ⟨fun h => h429 (Or.inl h), fun h => h429 (Or.inr h)⟩
    simp [call_n8n_action, MAX_RETRIES, callLoop, hg, h1, h2]
  · have h := callLoop_delays_plan g action MAX_RETRIES 0 none
    simpa [call_n8n_action, MAX_RETRIES, List.range_succ] using h
  · exact callLoop_attempts_le g action MAX_RETRIES 0 none rfl
  · intro b0 t0 b1 t1 b t hg0 hg1 hg2
    have s0 : retryable (g 0) = true := by rw [hg0]; rfl
    have s1 : retryable (g 1) = true := by rw [hg1]; rfl
    unfold call_n8n_action MAX_RETRIES
    rw [callLoop_retry_step g action 2 0 none s0,
      callLoop_retry_step g action 1 1 _ s1]
    rw [hg0, hg1]
    simp [callLoop, hg2, nextLastError, retryDelayMs, BASE_DELAY_MS, MAX_DELAY_MS]

/-- C1 counterexample: the claim says every HTTP 2xx response yields
success, but the code only accepts 200 and 201 — a gateway answering 202
(a 2xx status) makes `call_n8n_action` return a failure envelope. -/
theorem dispatch_202_fails :
    call_n8n_action (fun _ => .http 202 "accepted" "accepted") "book_appointment" =
      ({ success := false, action := "book_appointment",
         error := some "Client error: 202", details := some "accepted",
         attempts := 1 }, [])
    ∧ 202 / 100 = 2 := by
  constructor
  · rfl
  · rfl

/-- C1 witness: the amended policy evaluated at concrete gateways — a
first-attempt 200 succeeds at once, a first-attempt 404 fails at once with
one attempt, and a 500/500/200 gateway succeeds on the third attempt. -/
theorem dispatch_retry_policy_witness :
    call_n8n_action (fun _ => .http 200 "ok" "ok") "send_sms" =
      ({ success := true, action := "send_sms", data := some "ok", attempts := 1 }, [])
    ∧ call_n8n_action (fun _ => .http 404 "nf" "not found") "send_sms" =
      ({ success := false, action := "send_sms", error := some "Client error: 404",
         details := some "not found", attempts := 1 }, [])
    ∧ call_n8n_action
        (fun n => if n < 2 then .http 500 "e" "err" else .http 200 "ok" "ok") "send_sms" =
      ({ success := true, action := "send_sms", data := some "ok", attempts := 3 },
        [500, 1000]) := by
  refine ⟨?_, ?_, ?_⟩
  · exact (dispatch_retry_policy (fun _ => .http 200 "ok" "ok") "send_sms").1
      200 "ok" "ok" rfl (Or.inl rfl)
  · exact (dispatch_retry_policy (fun _ => .http 404 "nf" "not found") "send_sms").2.1
      404 "nf" "not found" rfl (by decide) (by decide)
  · exact (dispatch_retry_policy _ "send_sms").2.2.2
      "e" "err" "e" "err" "ok" "ok" rfl rfl rfl

/-- C2 (amended).  When every attempt fails retryably (HTTP 429/5xx or a
transport error), the result is the failure envelope with error
"Max retries exceeded" and `attempts == MAX_RETRIES`, and its `last_error`
field holds the message of the last transport error among the attempts —
`none` when all the failures were HTTP-status failures, since the code
only captures exception messages, not HTTP statuses. -/
theorem dispatch_exhaustion (g : Nat → GatewayResponse) (action : String)
    (h : ∀ i, i < MAX_RETRIES → retryable (g i) = true) :
    call_n8n_action g action =
      ({ success := false, action := action, error := some "Max retries exceeded",
         last_error := lastTransportError g MAX_RETRIES, attempts := MAX_RETRIES },
        [500, 1000, 2000]) := by
  unfold call_n8n_action MAX_RETRIES
  rw [callLoop_retry_step g action 2 0 none (h 0 (by decide)),
    callLoop_retry_step g action 1 1 _ (h 1 (by decide)),
    callLoop_retry_step g action 0 2 _ (h 2 (by decide))]
  simp [callLoop, lastTransportError, retryDelayMs, BASE_DELAY_MS, MAX_DELAY_MS,
    MAX_RETRIES]

/-- C2 counterexample: a gateway that answers HTTP 500 on every attempt
exhausts the retries, yet the envelope's `last_error` is `none` — it does
not carry the last error encountered (the HTTP 500), because only
transport exceptions update the captured error. -/
theorem dispatch_exhaustion_no_last_error :
    call_n8n_action (fun _ => .http 500 "e" "server error") "send_email" =
      ({ success := false, action := "send_email",
         error := some "Max retries exceeded", last_error := none, attempts := 3 },
        [500, 1000, 2000])
    ∧ retryable (.http 500 "e" "server error") = true := by
  constructor
  · rfl
  · rfl

/-- C2 witness: exhaustion on two timeouts then a 500 carries the second
timeout's message as `last_error`. -/
theorem dispatch_exhaustion_witness :
    call_n8n_action
      (fun n => if n = 0 then .transportError "timeout A"
        else if n = 1 then .transportError "timeout B"
        else .http 503 "e" "unavailable") "search_web" =
      ({ success := false, action := "search_web",
         error := some "Max retries exceeded", last_error := some "timeout B",
         attempts := 3 }, [500, 1000, 2000]) := by
  exact dispatch_exhaustion
    (fun n => if n = 0 then .transportError "timeout A"
      else if n = 1 then .transportError "timeout B"
      else .http 503 "e" "unavailable") "search_web" (by decide)

end N8nClient

namespace ConversationCtx

/-! ## Conversation Context (`app/conversation_context.py`)

Wall-clock instants are modelled as integers (seconds); the Python
`datetime.utcnow()` value at each call is passed in explicitly as `now`. -/

/-- Python's substring test `needle in haystack`, over lists of
characters. -/
def containsSub (needle : List Char) : List Char → Bool
  | [] => needle.isPrefixOf []
  | c :: t => needle.isPrefixOf (c :: t) || containsSub needle t

/-- Python `str.lower()` (ASCII case folding suffices for the fixed
keyword tables and claim inputs). -/
def lowerChars (l : List Char) : List Char := l.map Char.toLower

/-- `kw in text_lower` for a keyword string. -/
def pyIn (kw : String) (text : List Char) : Bool := containsSub kw.toList text

/-- One conversation turn, as appended by `add_turn`. -/
structure Turn where
  role : String
  content : String
  timestamp : ℤ
deriving DecidableEq, Repr

/-- The fields of `ConversationContext.__init__` that the claims range
over (`topic_stack` and `created_at` are carried for completeness). -/
structure ConversationContext where
  session_id : String
  max_history : Nat := 50
  history : List Turn := []
  user_sentiment : String := "neutral"
  topic_stack : List String := []
  clarification_count : Nat := 0
  retry_count : Nat := 0
  created_at : ℤ := 0
  last_user_speech_time : Option ℤ := none
  silence_count : Nat := 0
deriving DecidableEq, Repr

/-- Frustration indicators from `detect_sentiment`. -/
def frustration_keywords : List String :=
  ["frustrated", "annoyed", "angry", "upset", "ridiculous",
   "forget it", "never mind", "this is stupid", "waste of time",
   "not working", "doesn't work", "broken"]

/-- Confusion indicators from `detect_sentiment`. -/
def confusion_keywords : List String :=
  ["confused", "don't understand", "what", "huh", "unclear",
   "not sure", "don't get it", "explain", "clarify", "repeat"]

/-- Satisfaction indicators from `detect_sentiment`. -/
def satisfaction_keywords : List String :=
  ["great", "perfect", "excellent", "wonderful", "awesome",
   "thank you", "thanks", "appreciate", "helpful", "good"]

/-- Whether the lowercased text contains a frustration keyword. -/
def matchesFrustration (text : String) : Bool :=
  frustration_keywords.any fun kw => pyIn kw (lowerChars text.toList)

/-- Whether the lowercased text contains a confusion keyword. -/
def matchesConfusion (text : String) : Bool :=
  confusion_keywords.any fun kw => pyIn kw (lowerChars text.toList)

/-- Whether the lowercased text contains a satisfaction keyword. -/
def matchesSatisfaction (text : String) : Bool :=
  satisfaction_keywords.any fun kw => pyIn kw (lowerChars text.toList)

/-- `ConversationContext.detect_sentiment`. -/
def detect_sentiment (text : String) : String :=
  if matchesFrustration text then "frustrated"
  else if matchesConfusion text then "confused"
  else if matchesSatisfaction text then "satisfied"
  else "neutral"

/-- Patterns of `is_clarification_request`. -/
def clarification_patterns : List String :=
  ["what", "huh", "repeat", "again", "didn't catch",
   "didn't hear", "pardon", "sorry", "unclear"]

/-- `ConversationContext.is_clarification_request`. -/
def is_clarification_request (text : String) : Bool :=
  clarification_patterns.any fun p => pyIn p (lowerChars text.toList)

/-- `deque(maxlen=max_history)` append: drop from the left once the
bound is exceeded. -/
def appendBounded (maxlen : Nat) (l : List Turn) (t : Turn) : List Turn :=
  let l' := l ++ [t]
  if maxlen < l'.length then l'.drop (l'.length - maxlen) else l'

/-- `ConversationContext.add_turn`, with `now` the current instant. -/
def add_turn (now : ℤ) (role content : String) (c : ConversationContext) :
    ConversationContext :=
  let c1 := { c with history := appendBounded c.max_history c.history ⟨role, content, now⟩ }
  if role = "user" then
    let c2 := { c1 with last_user_speech_time := some now, silence_count := 0,
                        user_sentiment := detect_sentiment content }
    if is_clarification_request content then
      { c2 with clarification_count := c2.clarification_count + 1 }
    else c2
  else c1

/-- `ConversationContext.get_silence_duration`. -/
def get_silence_duration (now : ℤ) (c : ConversationContext) : Option ℤ :=
  c.last_user_speech_time.map (fun t => now - t)

/-- The three graduated silence messages. -/
def MSG_18 : String :=
  "I haven't heard from you in a while. Let me connect you with our team. One moment please."

def MSG_12 : String := "Take your time. I'll wait for you to respond."

def MSG_6 : String := "Are you still there? I'm here to help."

/-- `ConversationContext.get_silence_response`: returns the message (if a
threshold newly fires) and the mutated context. -/
def get_silence_response (now : ℤ) (c : ConversationContext) :
    Option String × ConversationContext :=
  match get_silence_duration now c with
  | none => (none, c)
  | some d =>
      if 18 ≤ d ∧ c.silence_count < 3 then
        (some MSG_18, { c with silence_count := 3 })
      else if 12 ≤ d ∧ c.silence_count < 2 then
        (some MSG_12, { c with silence_count := 2 })
      else if 6 ≤ d ∧ c.silence_count < 1 then
        (some MSG_6, { c with silence_count := 1 })
      else (none, c)

/-- The escalation level a silence message corresponds to. -/
def levelOfMsg (m : String) : Nat :=
  if m = MSG_6 then 1 else if m = MSG_12 then 2 else 3

/-- The messages emitted by a sequence of `get_silence_response` calls at
the given instants, with no intervening user turn. -/
def silenceRun (c : ConversationContext) : List ℤ → List String
  | [] => []
  | t :: ts =>
      match get_silence_response t c with
      | (some m, c') => m :: silenceRun c' ts
      | (none, c') => silenceRun c' ts

lemma get_silence_response_some (now : ℤ) (c : ConversationContext)
    (m : String) (c' : ConversationContext)
    (h : get_silence_response now c = (some m, c')) :
    c.silence_count < levelOfMsg m ∧ c'.silence_count = levelOfMsg m := by
  have l18 : levelOfMsg MSG_18 = 3 := by decide
  have l12 : levelOfMsg MSG_12 = 2 := by decide
  have l6 : levelOfMsg MSG_6 = 1 := by decide
  unfold get_silence_response at h
  split at h
  · exact absurd h (by simp)
  next d _ =>
    split at h
    next h18 =>
      rw [Prod.mk.injEq] at h
      obtain ⟨hm, hc⟩ := h
      cases hm
      subst hc
      exact ⟨by omega, by simp [l18]⟩
    next =>
      split at h
      next h12 =>
        rw [Prod.mk.injEq] at h
        obtain ⟨hm, hc⟩ := h
        cases hm
        subst hc
        exact ⟨by omega, by simp [l12]⟩
      next =>
        split at h
        next h6 =>
          rw [Prod.mk.injEq] at h
          obtain ⟨hm, hc⟩ := h
          cases hm
          subst hc
          exact ⟨by omega, by simp [l6]⟩
        next => exact absurd h (by simp)

lemma get_silence_response_none (now : ℤ) (c : ConversationContext)
    (c' : ConversationContext)
    (h : get_silence_response now c = (none, c')) : c' = c := by
  unfold get_silence_response at h
  split at h
  · rw [Prod.mk.injEq] at h
    exact h.2.symm
  next d _ =>
    split at h
    · exact absurd h (by simp)
    · split at h
      · exact absurd h (by simp)
      · split at h
        · exact absurd h (by simp)
        · rw [Prod.mk.injEq] at h
          exact h.2.symm

lemma silenceRun_invariant (ts : List ℤ) :
    ∀ c : ConversationContext,
      (silenceRun c ts).Pairwise (fun a b => levelOfMsg a < levelOfMsg b) ∧
      ∀ m ∈ silenceRun c ts, c.silence_count < levelOfMsg m := by
  induction ts with
  | nil => intro c; simp [silenceRun]
  | cons t ts ih =>
      intro c
      rcases hstep : get_silence_response t c with ⟨mo, c'⟩
      rcases mo with _ | m
      · have hc : c' = c := get_silence_response_none t c c' hstep
        have : silenceRun c (t :: ts) = silenceRun c' ts := by
          simp [silenceRun, hstep]
        rw [this, hc]
        exact ih c
      · have hrun : silenceRun c (t :: ts) = m :: silenceRun c' ts := by
          simp [silenceRun, hstep]
        obtain ⟨hlt, heq⟩ := get_silence_response_some t c m c' hstep
        obtain ⟨hpw, hmem⟩ := ih c'
        rw [hrun]
        refine ⟨List.Pairwise.cons ?_ hpw, ?_⟩
        · intro b hb
          have := hmem b hb
          omega
        · intro m' hm'
          rcases List.mem_cons.mp hm' with h | h
          · subst h; exact hlt
          · have := hmem m' h
            omega

/-- C3: over any sequence of `get_silence_response` calls with no
intervening user turn, the fired messages have strictly increasing
escalation levels (so a lower threshold never fires after a higher one),
each threshold's message fires at most once, a call that crosses no new
threshold returns `none`, and `add_turn` with role "user" resets the
escalation level to 0 and restarts the silence clock. -/
theorem silence_escalation (c : ConversationContext) (ts : List ℤ) :
    ((silenceRun c ts).Pairwise fun a b => levelOfMsg a < levelOfMsg b)
    ∧ (∀ m : String, (silenceRun c ts).count m ≤ 1)
    ∧ (∀ now t0, c.last_user_speech_time = some t0 →
        ¬(18 ≤ now - t0 ∧ c.silence_count < 3) →
        ¬(12 ≤ now - t0 ∧ c.silence_count < 2) →
        ¬(6 ≤ now - t0 ∧ c.silence_count < 1) →
        (get_silence_response now c).1 = none)
    ∧ (∀ now content, (add_turn now "user" content c).silence_count = 0
        ∧ (add_turn now "user" content c).last_user_speech_time = some now) := by
  obtain ⟨hpw, _⟩ := silenceRun_invariant ts c
  refine ⟨hpw, ?_, ?_, ?_⟩
  · have hnd : (silenceRun c ts).Nodup :=
      hpw.imp fun hab heq => by rw [heq] at hab; omega
    exact List.nodup_iff_count_le_one.mp hnd
  · intro now t0 h0 h18 h12 h6
    unfold get_silence_response get_silence_duration
    rw [h0]
    simp only [Option.map_some']
    rw [if_neg h18, if_neg h12, if_neg h6]
  · intro now content
    unfold add_turn
    by_cases hc : is_clarification_request content = true <;> simp [hc]

/-- C3 witness: a context whose 6-second threshold has already fired
returns `none` at 7 seconds of silence (no new threshold crossed), and a
user turn resets the escalation level and the silence clock. -/
theorem silence_escalation_witness :
    (get_silence_response 7
      { session_id := "s", last_user_speech_time := some 0, silence_count := 1 }).1 = none
    ∧ (add_turn 9 "user" "hello"
        { session_id := "s", last_user_speech_time := some 0, silence_count := 1 }).silence_count = 0
    ∧ (add_turn 9 "user" "hello"
        { session_id := "s", last_user_speech_time := some 0, silence_count := 1 }).last_user_speech_time = some 9 := by
  refine ⟨?_, ?_, ?_⟩
  · exact (silence_escalation
      { session_id := "s", last_user_speech_time := some 0, silence_count := 1 } []).2.2.1
      7 0 rfl (by decide) (by decide) (by decide)
  · exact ((silence_escalation
      { session_id := "s", last_user_speech_time := some 0, silence_count := 1 } []).2.2.2
      9 "hello").1
  · exact ((silence_escalation
      { session_id := "s", last_user_speech_time := some 0, silence_count := 1 } []).2.2.2
      9 "hello").2

/-- C4: `detect_sentiment` is a pure function of the text and the fixed
keyword tables (same text, same sentiment), and when several categories
match, the priority order frustration > confusion > satisfaction >
neutral decides — the first matching category wins. -/
theorem detect_sentiment_priority :
    (∀ t₁ t₂ : String, t₁ = t₂ → detect_sentiment t₁ = detect_sentiment t₂)
    ∧ (∀ t, matchesFrustration t = true → detect_sentiment t = "frustrated")
    ∧ (∀ t, matchesFrustration t = false → matchesConfusion t = true →
        detect_sentiment t = "confused")
    ∧ (∀ t, matchesFrustration t = false → matchesConfusion t = false →
        matchesSatisfaction t = true → detect_sentiment t = "satisfied")
    ∧ (∀ t, matchesFrustration t = false → matchesConfusion t = false →
        matchesSatisfaction t = false → detect_sentiment t = "neutral") := by
  refine ⟨fun t₁ t₂ h => by rw [h], ?_, ?_, ?_, ?_⟩
  · intro t h1
    simp [detect_sentiment, h1]
  · intro t h1 h2
    simp [detect_sentiment, h1, h2]
  · intro t h1 h2 h3
    simp [detect_sentiment, h1, h2, h3]
  · intro t h1 h2 h3
    simp [detect_sentiment, h1, h2, h3]

/-- C4 witness: a text with both frustration and satisfaction keywords is
classified "frustrated"; one with confusion and satisfaction keywords but
no frustration keyword is classified "confused". -/
theorem detect_sentiment_priority_witness :
    detect_sentiment "This is broken, but thanks, great!" = "frustrated"
    ∧ detect_sentiment "What? Thanks!" = "confused" := by
  exact ⟨detect_sentiment_priority.2.1 _ (by decide),
    detect_sentiment_priority.2.2.1 _ (by decide) (by decide)⟩

end ConversationCtx

namespace TTLRegistry

/-! ## Session Registry (`app/inbound_deepgram.py`, class `TTLDict`)

The `OrderedDict` is modelled as an insertion-ordered list of entries
(oldest first); `datetime.utcnow()` instants are integers passed in as
`now`.  Stored values are either a structured dict (mergeable by
`update`) or some other object. -/

/-- A stored value: a dict of fields, or a non-dict object. -/
inductive Value where
  | dict (fields : List (String × String))
  | other (obj : String)
deriving DecidableEq, Repr

/-- One `OrderedDict` slot: `key -> (timestamp, value)`. -/
structure Entry where
  key : String
  ts : ℤ
  val : Value
deriving DecidableEq, Repr

/-- The registry: entries in insertion order plus the constructor
configuration `ttl_seconds` and `max_size`. -/
structure TTLDict where
  entries : List Entry
  ttl : ℤ
  max_size : Nat
deriving DecidableEq, Repr

/-- `now - ts >= timedelta(seconds=ttl)`. -/
def expired (ttl now : ℤ) (e : Entry) : Bool := decide (ttl ≤ now - e.ts)

/-- `TTLDict._evict_expired`: drop expired entries, preserving order. -/
def _evict_expired (now : ℤ) (d : TTLDict) : TTLDict :=
  { d with entries := d.entries.filter (fun e => !expired d.ttl now e) }

/-- Python dict assignment `self._dict[key] = (now, value)`: replace in
place when the key exists (keeping its position), else append. -/
def setEntry (k : String) (now : ℤ) (v : Value) : List Entry → List Entry
  | [] => [⟨k, now, v⟩]
  | e :: es => if e.key = k then ⟨k, now, v⟩ :: es else e :: setEntry k now v es

/-- `TTLDict.set`: evict expired entries, pop the oldest entry when at
capacity (`popitem(last=False)`), then insert with a fresh timestamp. -/
def TTLDict.set (now : ℤ) (k : String) (v : Value) (d : TTLDict) : TTLDict :=
  let d1 := _evict_expired now d
  let base := if d1.max_size ≤ d1.entries.length then d1.entries.drop 1 else d1.entries
  { d1 with entries := setEntry k now v base }

/-- `TTLDict.get`: a fresh entry's value, lazily deleting a stale one. -/
def TTLDict.get (now : ℤ) (k : String) (d : TTLDict) : Option Value × TTLDict :=
  match d.entries.find? (fun e => e.key = k) with
  | none => (none, d)
  | some e =>
      if expired d.ttl now e then
        (none, { d with entries := d.entries.eraseP (fun e' => e'.key = k) })
      else (some e.val, d)

/-- Python `dict.update` on an association list: existing keys are
overwritten in place, new keys appended in update order. -/
def assocSet (k v : String) : List (String × String) → List (String × String)
  | [] => [(k, v)]
  | p :: ps => if p.1 = k then (k, v) :: ps else p :: assocSet k v ps

def dictUpdate (fields : List (String × String)) :
    List (String × String) → List (String × String)
  | [] => fields
  | (k, v) :: rest => dictUpdate (assocSet k v fields) rest

/-- `TTLDict.update`: merge `updates` into a live dict value, keeping the
entry's original timestamp (`self._dict[key] = (ts, val)`); return false
without side effect when the key is absent, stale, or not a dict. -/
def TTLDict.update (now : ℤ) (k : String) (updates : List (String × String))
    (d : TTLDict) : Bool × TTLDict :=
  match d.entries.find? (fun e => e.key = k) with
  | none => (false, d)
  | some e =>
      if expired d.ttl now e then (false, d)
      else
        match e.val with
        | .dict fields =>
            (true, { d with entries := d.entries.map (fun e' =>
                if e'.key = k then ⟨e'.key, e'.ts, .dict (dictUpdate fields updates)⟩
                else e') })
        | .other _ => (false, d)

/-- `TTLDict.__len__`: evict expired entries, then count. -/
def TTLDict.len (now : ℤ) (d : TTLDict) : Nat × TTLDict :=
  let d1 := _evict_expired now d
  (d1.entries.length, d1)

/-- A sequence of `set` calls, each at its own instant. -/
def applySets (d : TTLDict) : List (ℤ × String × Value) → TTLDict
  | [] => d
  | (now, k, v) :: ops => applySets (d.set now k v) ops

/-- A sequence of `update` calls, each at its own instant. -/
def applyUpdates (d : TTLDict) : List (ℤ × String × List (String × String)) → TTLDict
  | [] => d
  | (now, k, u) :: ops => applyUpdates (TTLDict.update now k u d).2 ops

lemma setEntry_length (k : String) (now : ℤ) (v : Value) :
    ∀ l : List Entry, (setEntry k now v l).length ≤ l.length + 1 := by
  intro l
  induction l with
  | nil => simp [setEntry]
  | cons e es ih =>
      by_cases h : e.key = k
      · simp [setEntry, h]
      · simp [setEntry, h]
        omega

lemma set_max_size (now : ℤ) (k : String) (v : Value) (d : TTLDict) :
    (d.set now k v).max_size = d.max_size ∧ (d.set now k v).ttl = d.ttl := by
  simp [TTLDict.set, _evict_expired]

lemma set_length_le (now : ℤ) (k : String) (v : Value) (d : TTLDict)
    (hpos : 0 < d.max_size) (h : d.entries.length ≤ d.max_size) :
    (d.set now k v).entries.length ≤ d.max_size := by
  have hev : (_evict_expired now d).entries.length ≤ d.entries.length :=
    List.length_filter_le _ _
  unfold TTLDict.set
  simp only [_evict_expired]
  by_cases hcap :
      d.max_size ≤ (d.entries.filter (fun e => !expired d.ttl now e)).length
  · simp only [hcap, if_true]
    have := setEntry_length k now v
      ((d.entries.filter (fun e => !expired d.ttl now e)).drop 1)
    have hd : ((d.entries.filter (fun e => !expired d.ttl now e)).drop 1).length =
        (d.entries.filter (fun e => !expired d.ttl now e)).length - 1 := by
      simp
    simp only [_evict_expired] at hev
    calc (setEntry k now v
          ((d.entries.filter (fun e => !expired d.ttl now e)).drop 1)).length
        ≤ ((d.entries.filter (fun e => !expired d.ttl now e)).drop 1).length + 1 := by
          exact setEntry_length k now v _
      _ ≤ d.max_size := by omega
  · simp only [hcap, if_false]
    have := setEntry_length k now v (d.entries.filter (fun e => !expired d.ttl now e))
    omega

lemma applySets_bounded (ops : List (ℤ × String × Value)) :
    ∀ d : TTLDict, 0 < d.max_size → d.entries.length ≤ d.max_size →
      (applySets d ops).entries.length ≤ (applySets d ops).max_size := by
  induction ops with
  | nil => intro d _ h; simpa [applySets] using h
  | cons op ops ih =>
      intro d hpos h
      obtain ⟨now, k, v⟩ := op
      have hm := set_max_size now k v d
      exact ih (d.set now k v) (hm.1 ▸ hpos)
        (hm.1 ▸ set_length_le now k v d hpos h)

lemma applySets_max (ops : List (ℤ × String × Value)) :
    ∀ d : TTLDict, (applySets d ops).max_size = d.max_size := by
  induction ops with
  | nil => intro d; simp [applySets]
  | cons op ops ih =>
      intro d
      obtain ⟨now, k, v⟩ := op
      rw [applySets, ih, (set_max_size now k v d).1]

lemma setEntry_key_mem (k : String) (now : ℤ) (v : Value) :
    ∀ l : List Entry, k ∈ (setEntry k now v l).map (fun e => e.key) := by
  intro l
  induction l with
  | nil => simp [setEntry]
  | cons e es ih =>
      by_cases h : e.key = k
      · have hs : setEntry k now v (e :: es) = ⟨k, now, v⟩ :: es := by
          simp [setEntry, h]
        rw [hs, List.map_cons]
        exact List.mem_cons_self _ _
      · have hs : setEntry k now v (e :: es) = e :: setEntry k now v es := by
          simp [setEntry, h]
        rw [hs, List.map_cons]
        exact List.mem_cons_of_mem _ ih

lemma setEntry_key_sub (k : String) (now : ℤ) (v : Value) (k' : String) :
    ∀ l : List Entry, k' ∈ (setEntry k now v l).map (fun e => e.key) →
      k' = k ∨ k' ∈ l.map (fun e => e.key) := by
  intro l
  induction l with
  | nil =>
      intro h
      simp [setEntry] at h
      exact Or.inl h
  | cons e es ih =>
      intro hmem
      by_cases h : e.key = k
      · have hs : setEntry k now v (e :: es) = ⟨k, now, v⟩ :: es := by
          simp [setEntry, h]
        rw [hs, List.map_cons, List.mem_cons] at hmem
        rcases hmem with h1 | h2
        · exact Or.inl h1
        · exact Or.inr (by rw [List.map_cons, List.mem_cons]; exact Or.inr h2)
      · have hs : setEntry k now v (e :: es) = e :: setEntry k now v es := by
          simp [setEntry, h]
        rw [hs, List.map_cons, List.mem_cons] at hmem
        rcases hmem with h1 | h2
        · exact Or.inr (by rw [List.map_cons, List.mem_cons]; exact Or.inl h1)
        · rcases ih h2 with h3 | h4
          · exact Or.inl h3
          · exact Or.inr (by rw [List.map_cons, List.mem_cons]; exact Or.inr h4)

/-- C5: starting from a freshly constructed registry, no sequence of
`set` calls (however many distinct keys) makes `len()` exceed
`max_size`; and a `set` arriving when the live entries are at capacity
evicts the oldest-inserted live entry before inserting the new key. -/
theorem registry_bounded (ttl : ℤ) (max_size : Nat) (hpos : 0 < max_size)
    (ops : List (ℤ × String × Value)) :
    ((applySets { entries := [], ttl := ttl, max_size := max_size } ops).entries.length
        ≤ max_size
      ∧ ∀ now, ((applySets { entries := [], ttl := ttl, max_size := max_size } ops).len
          now).1 ≤ max_size)
    ∧ (∀ (d : TTLDict) (now : ℤ) (k : String) (v : Value) (e0 : Entry) (rest : List Entry),
        d.max_size ≤ (_evict_expired now d).entries.length →
        (_evict_expired now d).entries = e0 :: rest →
        e0.key ∉ rest.map (fun e => e.key) →
        e0.key ≠ k →
        e0.key ∉ (d.set now k v).entries.map (fun e => e.key)
          ∧ k ∈ (d.set now k v).entries.map (fun e => e.key)) := by
  constructor
  · have hb := applySets_bounded ops
      { entries := [], ttl := ttl, max_size := max_size } hpos (by simp)
    have hm := applySets_max ops { entries := [], ttl := ttl, max_size := max_size }
    rw [hm] at hb
    refine ⟨hb, fun now => ?_⟩
    calc ((applySets { entries := [], ttl := ttl, max_size := max_size } ops).len now).1
        ≤ (applySets { entries := [], ttl := ttl, max_size := max_size } ops).entries.length := by
          simpa [TTLDict.len, _evict_expired] using List.length_filter_le _ _
      _ ≤ max_size := hb
  · intro d now k v e0 rest hcap hlist hnod hne
    have hset : (d.set now k v).entries = setEntry k now v rest := by
      unfold TTLDict.set
      simp only [_evict_expired] at hlist hcap ⊢
      rw [hlist] at hcap ⊢
      rw [if_pos (by simpa using hcap)]
      rfl
    rw [hset]
    refine ⟨fun hmem => ?_, setEntry_key_mem k now v rest⟩
    rcases setEntry_key_sub k now v e0.key rest hmem with h1 | h2
    · exact hne h1
    · exact hnod h2

/-- C5 witness: with `max_size = 2`, three sets under distinct keys leave
at most two live entries, and a set at capacity evicts the
oldest-inserted key "a" while inserting the new key "c". -/
theorem registry_bounded_witness :
    (applySets { entries := [], ttl := 3600, max_size := 2 }
        [(0, "a", .other "x"), (1, "b", .other "y"), (2, "c", .other "z")]).entries.length ≤ 2
    ∧ "a" ∉ (TTLDict.set 2 "c" (.other "z")
        { entries := [⟨"a", 0, .other "x"⟩, ⟨"b", 1, .other "y"⟩],
          ttl := 3600, max_size := 2 }).entries.map (fun e => e.key)
    ∧ "c" ∈ (TTLDict.set 2 "c" (.other "z")
        { entries := [⟨"a", 0, .other "x"⟩, ⟨"b", 1, .other "y"⟩],
          ttl := 3600, max_size := 2 }).entries.map (fun e => e.key) := by
  refine ⟨(registry_bounded 3600 2 (by decide)
      [(0, "a", .other "x"), (1, "b", .other "y"), (2, "c", .other "z")]).1.1, ?_, ?_⟩
  · exact ((registry_bounded 3600 2 (by decide) []).2 _ 2 "c" (.other "z")
      ⟨"a", 0, .other "x"⟩ [⟨"b", 1, .other "y"⟩]
      (by decide) (by decide) (by decide) (by decide)).1
  · exact ((registry_bounded 3600 2 (by decide) []).2 _ 2 "c" (.other "z")
      ⟨"a", 0, .other "x"⟩ [⟨"b", 1, .other "y"⟩]
      (by decide) (by decide) (by decide) (by decide)).2

lemma update_entries_shape (now : ℤ) (k : String) (u : List (String × String))
    (d : TTLDict) :
    (TTLDict.update now k u d).2.entries.map (fun e => (e.key, e.ts)) =
      d.entries.map (fun e => (e.key, e.ts))
    ∧ (TTLDict.update now k u d).2.ttl = d.ttl := by
  rcases hf : d.entries.find? (fun e => e.key = k) with _ | e
  · simp [TTLDict.update, hf]
  · by_cases hex : expired d.ttl now e = true
    · simp [TTLDict.update, hf, hex]
    · rcases hv : e.val with fields | o
      · refine ⟨?_, by simp [TTLDict.update, hf, hex, hv]⟩
        have hent : (TTLDict.update now k u d).2.entries =
            d.entries.map (fun e' =>
              if e'.key = k then ⟨e'.key, e'.ts, .dict (dictUpdate fields u)⟩
              else e') := by
          simp [TTLDict.update, hf, hex, hv]
        rw [hent, List.map_map]
        refine List.map_congr_left fun e' _ => ?_
        by_cases h : e'.key = k <;> simp [h]
      · simp [TTLDict.update, hf, hex, hv]

lemma applyUpdates_frame (ops : List (ℤ × String × List (String × String))) :
    ∀ d : TTLDict,
      (applyUpdates d ops).entries.map (fun e => (e.key, e.ts)) =
        d.entries.map (fun e => (e.key, e.ts))
      ∧ (applyUpdates d ops).ttl = d.ttl := by
  induction ops with
  | nil => intro d; exact ⟨rfl, rfl⟩
  | cons op ops ih =>
      intro d
      obtain ⟨now, k, u⟩ := op
      obtain ⟨h1, h2⟩ := update_entries_shape now k u d
      obtain ⟨h3, h4⟩ := ih (TTLDict.update now k u d).2
      refine ⟨?_, ?_⟩
      · show (applyUpdates (TTLDict.update now k u d).2 ops).entries.map _ = _
        rw [h3, h1]
      · show (applyUpdates (TTLDict.update now k u d).2 ops).ttl = _
        rw [h4, h2]

lemma find?_key_ts {l₁ l₂ : List Entry}
    (h : l₁.map (fun e => (e.key, e.ts)) = l₂.map (fun e => (e.key, e.ts)))
    (k : String) :
    Option.map (fun e => (e.key, e.ts)) (l₁.find? (fun e => e.key = k)) =
      Option.map (fun e => (e.key, e.ts)) (l₂.find? (fun e => e.key = k)) := by
  induction l₁ generalizing l₂ with
  | nil =>
      cases l₂ with
      | nil => rfl
      | cons b bs => simp at h
  | cons a as ih =>
      cases l₂ with
      | nil => simp at h
      | cons b bs =>
          simp only [List.map_cons, List.cons.injEq] at h
          obtain ⟨hab, hrest⟩ := h
          have hkey : a.key = b.key := congrArg Prod.fst hab
          by_cases hk : a.key = k
          · rw [List.find?_cons_of_pos _ (by simp [hk]),
              List.find?_cons_of_pos _ (by simp [← hkey, hk])]
            simp [hab]
          · rw [List.find?_cons_of_neg _ (by simp [hk]),
              List.find?_cons_of_neg _ (by simp [← hkey, hk])]
            exact ih hrest

/-- C10: `TTLDict.update` merges fields into an existing live dict value
while keeping the entry's original timestamp; no sequence of updates
changes any entry's key or timestamp, so an entry is visible to `get` at
time `now` exactly while `now - ts < ttl`, with `ts` from its most recent
`set` — regardless of intervening updates. -/
theorem registry_update_frame (d : TTLDict)
    (ops : List (ℤ × String × List (String × String))) :
    ((applyUpdates d ops).entries.map (fun e => (e.key, e.ts)) =
        d.entries.map (fun e => (e.key, e.ts)))
    ∧ (∀ (now : ℤ) (k : String) (u : List (String × String)) (e : Entry)
        (fields : List (String × String)),
        d.entries.find? (fun e' => e'.key = k) = some e →
        expired d.ttl now e = false →
        e.val = .dict fields →
        (TTLDict.update now k u d).1 = true ∧
          (TTLDict.update now k u d).2.entries.find? (fun e' => e'.key = k) =
            some ⟨e.key, e.ts, .dict (dictUpdate fields u)⟩)
    ∧ (∀ (now : ℤ) (k : String) (e : Entry),
        d.entries.find? (fun e' => e'.key = k) = some e →
        (((applyUpdates d ops).get now k).1.isSome = true ↔ now - e.ts < d.ttl)) := by
  obtain ⟨hframe, httl⟩ := applyUpdates_frame ops d
  refine ⟨hframe, ?_, ?_⟩
  · intro now k u e fields hf hex hv
    have hkey : e.key = k := by
      have := List.find?_some hf
      simpa using this
    have hex' : ¬ expired d.ttl now e = true := by rw [hex]; exact Bool.false_ne_true
    constructor
    · simp [TTLDict.update, hf, hex', hv]
    · have hent : (TTLDict.update now k u d).2.entries =
          d.entries.map (fun e' =>
            if e'.key = k then ⟨e'.key, e'.ts, .dict (dictUpdate fields u)⟩
            else e') := by
        simp [TTLDict.update, hf, hex', hv]
      rw [hent, List.find?_map]
      have hpred : ((fun e' : Entry => decide (e'.key = k)) ∘
          (fun e' : Entry =>
            if e'.key = k then (⟨e'.key, e'.ts, .dict (dictUpdate fields u)⟩ : Entry)
            else e')) = fun e' : Entry => decide (e'.key = k) := by
        funext e'
        by_cases h : e'.key = k <;> simp [h]
      rw [hpred, hf]
      simp [hkey]
  · intro now k e hf
    have hmap := find?_key_ts hframe k
    rw [hf] at hmap
    rcases hf' : (applyUpdates d ops).entries.find? (fun e' => e'.key = k) with _ | e'
    · rw [hf'] at hmap
      simp at hmap
    · rw [hf'] at hmap
      simp only [Option.map_some', Option.some.injEq] at hmap
      have hts : e'.ts = e.ts := congrArg Prod.snd hmap
      have hexp : expired (applyUpdates d ops).ttl now e' = decide (d.ttl ≤ now - e.ts) := by
        rw [expired, httl, hts]
      by_cases hle : d.ttl ≤ now - e.ts
      · have hex : expired (applyUpdates d ops).ttl now e' = true := by
          rw [hexp]; exact decide_eq_true hle
        simp [TTLDict.get, hf', hex]
        omega
      · have hex : expired (applyUpdates d ops).ttl now e' = false := by
          rw [hexp]; exact decide_eq_false hle
        simp [TTLDict.get, hf', hex]
        omega

/-- C10 witness: an entry set at time 0 with ttl 10, updated at times 3
and 6, still carries timestamp 0; the update at time 3 merges the fields
and reports true; the entry is visible to `get` at time 9 and invisible
at time 10. -/
theorem registry_update_frame_witness :
    ((applyUpdates
        { entries := [⟨"s", 0, .dict [("st", "new")]⟩], ttl := 10, max_size := 5 }
        [(3, "s", [("x", "1")]), (6, "s", [("y", "2")])]).entries.map
          (fun e => (e.key, e.ts)) = [("s", 0)])
    ∧ (TTLDict.update 3 "s" [("x", "1")]
        { entries := [⟨"s", 0, .dict [("st", "new")]⟩], ttl := 10, max_size := 5 }).1 = true
    ∧ (((applyUpdates
        { entries := [⟨"s", 0, .dict [("st", "new")]⟩], ttl := 10, max_size := 5 }
        [(3, "s", [("x", "1")]), (6, "s", [("y", "2")])]).get 9 "s").1.isSome = true)
    ∧ (((applyUpdates
        { entries := [⟨"s", 0, .dict [("st", "new")]⟩], ttl := 10, max_size := 5 }
        [(3, "s", [("x", "1")]), (6, "s", [("y", "2")])]).get 10 "s").1.isSome = false) := by
  have hth := registry_update_frame
    (TTLDict.mk [⟨"s", 0, .dict [("st", "new")]⟩] 10 5)
    [(3, "s", [("x", "1")]), (6, "s", [("y", "2")])]
  have hth0 := registry_update_frame
    (TTLDict.mk [⟨"s", 0, .dict [("st", "new")]⟩] 10 5) []
  refine ⟨hth.1.trans (by decide), ?_, ?_, ?_⟩
  · exact (hth0.2.1 3 "s" [("x", "1")] ⟨"s", 0, .dict [("st", "new")]⟩
      [("st", "new")] (by decide) (by decide) (by decide)).1
  · exact (hth.2.2 9 "s" ⟨"s", 0, .dict [("st", "new")]⟩ (by decide)).mpr (by decide)
  · have h := hth.2.2 10 "s" ⟨"s", 0, .dict [("st", "new")]⟩ (by decide)
    rcases hb : ((applyUpdates
        { entries := [⟨"s", 0, .dict [("st", "new")]⟩], ttl := 10, max_size := 5 }
        [(3, "s", [("x", "1")]), (6, "s", [("y", "2")])]).get 10 "s").1.isSome with _ | _
    · rfl
    · exact absurd (h.mp (by rw [hb])) (by decide)

end TTLRegistry

namespace Relay

/-! ## Relay inbound pumps (`app/inbound_deepgram.py` `deepgram_to_twilio`,
`app/browser_ws.py` `deepgram_to_browser`)

Each pump is modelled by what it sends per received agent control frame:
messages to the upstream agent socket (`deepgram_ws.send`) and events to
the client transport (`websocket.send_json`).  The function handler
(`handle_function_call` plus serialization) either returns a result dict
or raises, modelled as `Except` with the exception message. -/

/-- Agent control frames dispatched on by the pumps. -/
inductive AgentFrame where
  | conversationText (role content : String)
  | functionCallRequest (name : String) (id : String) (args : List (String × String))
  | errorFrame (code message : String)
  | userStartedSpeaking
  | agentStartedSpeaking
  | other (msgType : String)
deriving DecidableEq, Repr

/-- A `FunctionCallResponse` frame sent back to the agent: the
`function_call_id` and the result dict serialized into `output`. -/
structure FunctionCallResponse where
  function_call_id : String
  output : List (String × String)
deriving DecidableEq, Repr

/-- Events sent to the client transport. -/
inductive ClientEvent where
  | errorEvent (message : String)
  | clearEvent (streamSid : String)
  | agentResponse (text : String)
  | transcriptEvent (text : String)
  | userStartedSpeakingEvent
  | agentStartedSpeakingEvent
  | passthrough (msgType : String)
deriving DecidableEq, Repr

/-- A message emitted by a pump, tagged with its destination socket. -/
inductive Sent where
  | toAgent (resp : FunctionCallResponse)
  | toClient (event : ClientEvent)
deriving DecidableEq, Repr

/-- The generic apologetic "speak" text of the `except` arm around
function-call handling. -/
def APOLOGY_SPEAK : String := "I'm sorry, something went wrong. Could you try again?"

/-- A function handler: result dict, or the raised exception's message. -/
def Handler : Type := String → List (String × String) → Except String (List (String × String))

/-- One iteration of `deepgram_to_twilio`'s message dispatch: what is
sent for one agent frame.  `streamSid` is `call_metadata.get("stream_sid")`.
`ConversationText` and non-timeout `Error` frames only log (and update
local state); nothing is sent to either socket for them. -/
def handleFrameTwilio (handler : Handler) (streamSid : Option String) :
    AgentFrame → List Sent
  | .conversationText _ _ => []
  | .functionCallRequest name id args =>
      match handler name args with
      | .ok result => [.toAgent ⟨id, result⟩]
      | .error _ => [.toAgent ⟨id, [("speak", APOLOGY_SPEAK)]⟩]
  | .errorFrame _ _ => []
  | .userStartedSpeaking =>
      match streamSid with
      | some sid => [.toClient (.clearEvent sid)]
      | none => []
  | .agentStartedSpeaking => []
  | .other _ => []

/-- One iteration of `deepgram_to_browser`'s message dispatch. -/
def handleFrameBrowser (handler : Handler) : AgentFrame → List Sent
  | .conversationText role content =>
      if role = "assistant" then [.toClient (.agentResponse content)]
      else if role = "user" then [.toClient (.transcriptEvent content)]
      else []
  | .functionCallRequest name id args =>
      match handler name args with
      | .ok result => [.toAgent ⟨id, result⟩]
      | .error _ => [.toAgent ⟨id, [("speak", APOLOGY_SPEAK)]⟩]
  | .errorFrame code msg =>
      if code = "CLIENT_MESSAGE_TIMEOUT" then []
      else [.toClient (.errorEvent ("Deepgram error: " ++ msg))]
  | .userStartedSpeaking => [.toClient .userStartedSpeakingEvent]
  | .agentStartedSpeaking => [.toClient .agentStartedSpeakingEvent]
  | .other t => [.toClient (.passthrough t)]

/-- The `async for` receive loop of `deepgram_to_twilio`: every frame is
handled in arrival order; the per-frame try/except keeps the loop alive
after a failing function call. -/
def pumpTwilio (handler : Handler) (streamSid : Option String) :
    List AgentFrame → List Sent
  | [] => []
  | f :: fs => handleFrameTwilio handler streamSid f ++ pumpTwilio handler streamSid fs

/-- The `async for` receive loop of `deepgram_to_browser`. -/
def pumpBrowser (handler : Handler) : List AgentFrame → List Sent
  | [] => []
  | f :: fs => handleFrameBrowser handler f ++ pumpBrowser handler fs

lemma pumpTwilio_append (handler : Handler) (sid : Option String)
    (xs ys : List AgentFrame) :
    pumpTwilio handler sid (xs ++ ys) =
      pumpTwilio handler sid xs ++ pumpTwilio handler sid ys := by
  induction xs with
  | nil => simp [pumpTwilio]
  | cons f fs ih => simp [pumpTwilio, ih]

lemma pumpBrowser_append (handler : Handler) (xs ys : List AgentFrame) :
    pumpBrowser handler (xs ++ ys) =
      pumpBrowser handler xs ++ pumpBrowser handler ys := by
  induction xs with
  | nil => simp [pumpBrowser]
  | cons f fs ih => simp [pumpBrowser, ih]

/-- C8: when handling a `FunctionCallRequest` raises, both relays send a
`FunctionCallResponse` carrying the same `function_call_id` with the
generic apologetic "speak" text, and the pump goes on to process every
frame before and after the failing one exactly as it would otherwise —
the failed side effect does not tear the session down. -/
theorem function_call_failure_is_contained (handler : Handler)
    (sid : Option String) (name id : String) (args : List (String × String))
    (e : String) (h : handler name args = .error e) :
    (handleFrameTwilio handler sid (.functionCallRequest name id args) =
        [.toAgent ⟨id, [("speak", APOLOGY_SPEAK)]⟩])
    ∧ (handleFrameBrowser handler (.functionCallRequest name id args) =
        [.toAgent ⟨id, [("speak", APOLOGY_SPEAK)]⟩])
    ∧ (∀ xs ys, pumpTwilio handler sid (xs ++ .functionCallRequest name id args :: ys) =
        pumpTwilio handler sid xs ++ [.toAgent ⟨id, [("speak", APOLOGY_SPEAK)]⟩]
          ++ pumpTwilio handler sid ys)
    ∧ (∀ xs ys, pumpBrowser handler (xs ++ .functionCallRequest name id args :: ys) =
        pumpBrowser handler xs ++ [.toAgent ⟨id, [("speak", APOLOGY_SPEAK)]⟩]
          ++ pumpBrowser handler ys) := by
  have ht : handleFrameTwilio handler sid (.functionCallRequest name id args) =
      [.toAgent ⟨id, [("speak", APOLOGY_SPEAK)]⟩] := by
    simp [handleFrameTwilio, h]
  have hb : handleFrameBrowser handler (.functionCallRequest name id args) =
      [.toAgent ⟨id, [("speak", APOLOGY_SPEAK)]⟩] := by
    simp [handleFrameBrowser, h]
  refine ⟨ht, hb, ?_, ?_⟩
  · intro xs ys
    rw [pumpTwilio_append]
    show _ ++ (handleFrameTwilio handler sid _ ++ pumpTwilio handler sid ys) = _
    rw [ht, List.append_assoc]
  · intro xs ys
    rw [pumpBrowser_append]
    show _ ++ (handleFrameBrowser handler _ ++ pumpBrowser handler ys) = _
    rw [hb, List.append_assoc]

/-- C8 witness: a handler that raises on `book_appointment` makes the
telephony pump emit the apologetic response between the outputs for the
surrounding frames, and the browser relay behaves the same. -/
theorem function_call_failure_is_contained_witness :
    pumpTwilio (fun _ _ => .error "boom") (some "MZ1")
      [.userStartedSpeaking, .functionCallRequest "book_appointment" "fc_1" [],
        .userStartedSpeaking] =
      [.toClient (.clearEvent "MZ1"),
        .toAgent ⟨"fc_1", [("speak", APOLOGY_SPEAK)]⟩,
        .toClient (.clearEvent "MZ1")]
    ∧ handleFrameBrowser (fun _ _ => .error "boom")
        (.functionCallRequest "book_appointment" "fc_1" []) =
      [.toAgent ⟨"fc_1", [("speak", APOLOGY_SPEAK)]⟩] := by
  have h := function_call_failure_is_contained (fun _ _ => .error "boom")
    (some "MZ1") "book_appointment" "fc_1" [] "boom" rfl
  constructor
  · exact h.2.2.1 [.userStartedSpeaking] [.userStartedSpeaking]
  · exact h.2.1

/-- C9 (amended): both relays suppress the upstream idle/keepalive
timeout error (`CLIENT_MESSAGE_TIMEOUT`) — nothing is sent to the client;
the browser relay surfaces every other error code to the client as an
`error` event, but the telephony relay only logs other error codes and
sends no error event to its client transport. -/
theorem upstream_error_handling (handler : Handler) (sid : Option String)
    (code msg : String) :
    (code = "CLIENT_MESSAGE_TIMEOUT" →
      handleFrameBrowser handler (.errorFrame code msg) = [])
    ∧ (code ≠ "CLIENT_MESSAGE_TIMEOUT" →
      handleFrameBrowser handler (.errorFrame code msg) =
        [.toClient (.errorEvent ("Deepgram error: " ++ msg))])
    ∧ handleFrameTwilio handler sid (.errorFrame code msg) = [] := by
  refine ⟨fun h => by simp [handleFrameBrowser, h], fun h => by simp [handleFrameBrowser, h],
    rfl⟩

/-- C9 counterexample: on the telephony relay a non-timeout upstream
error (`INTERNAL_ERROR`) produces no outgoing message at all — in
particular no `error` event reaches the client transport, contradicting
the claim that every non-timeout code is surfaced to the client. -/
theorem twilio_error_not_surfaced :
    handleFrameTwilio (fun _ _ => .ok []) (some "MZ1")
      (.errorFrame "INTERNAL_ERROR" "boom") = []
    ∧ "INTERNAL_ERROR" ≠ "CLIENT_MESSAGE_TIMEOUT" := by
  exact ⟨rfl, by decide⟩

/-- C9 witness: the browser relay drops the idle-timeout error and
surfaces a non-timeout error as an `error` event. -/
theorem upstream_error_handling_witness :
    handleFrameBrowser (fun _ _ => .ok []) (.errorFrame "CLIENT_MESSAGE_TIMEOUT" "t") = []
    ∧ handleFrameBrowser (fun _ _ => .ok []) (.errorFrame "INTERNAL_ERROR" "boom") =
      [.toClient (.errorEvent ("Deepgram error: " ++ "boom"))] := by
  exact ⟨(upstream_error_handling (fun _ _ => .ok []) none "CLIENT_MESSAGE_TIMEOUT" "t").1 rfl,
    (upstream_error_handling (fun _ _ => .ok []) none "INTERNAL_ERROR" "boom").2.1 (by decide)⟩

end Relay

namespace Sanitizer

/-! ## Output Sanitizer (`app/tts_sanitizer.py`)

Texts are processed as lists of characters.  Each Python regex of the
module is implemented as a dedicated scanner with the same matching
semantics (leftmost, non-overlapping, greedy with the backtracking the
concrete pattern needs, `re.IGNORECASE` where compiled with it); `re.sub`
scans the original text, so a scanner's continuation point is the end of
the matched original text. -/

/-- `\w` (ASCII): letters, digits, underscore. -/
def isWordChar (c : Char) : Bool := c.isAlphanum || c = '_'

/-- `\s` (ASCII): space, tab, newline, CR, vertical tab, form feed. -/
def isSpaceChar (c : Char) : Bool :=
  c = ' ' || c = '\t' || c = '\n' || c = '\x0d' || c = '\x0b' || c = '\x0c'

def isWordOpt : Option Char → Bool
  | none => false
  | some c => isWordChar c

/-- `\b`: a word boundary between two adjacent positions. -/
def boundary (a b : Option Char) : Bool := isWordOpt a != isWordOpt b

/-- A substitution matcher: given the previous original character and the
current suffix, optionally yield the replacement and the rest after the
match (which consumes at least one character for every pattern here). -/
def Matcher : Type := Option Char → List Char → Option (List Char × List Char)

/-- `re.sub` driver: try the matcher at each position, left to right; on
a match, emit the replacement and continue after the matched text. -/
def scanSubAux (m : Matcher) : Nat → Option Char → List Char → List Char
  | 0, _, s => s
  | _ + 1, _, [] => []
  | fuel + 1, prev, c :: rest =>
      match m prev (c :: rest) with
      | some (rep, rest') =>
          let consumed := (c :: rest).take ((c :: rest).length - rest'.length)
          let prev' := match consumed.getLast? with
            | some x => some x
            | none => prev
          rep ++ scanSubAux m fuel prev' rest'
      | none => c :: scanSubAux m fuel (some c) rest

def scanSub (m : Matcher) (s : List Char) : List Char :=
  scanSubAux m (s.length + 1) none s

/-- Case-insensitive literal match; returns the rest on success. -/
def matchLitIC : List Char → List Char → Option (List Char)
  | [], s => some s
  | _ :: _, [] => none
  | l :: ls, c :: cs => if c.toLower = l.toLower then matchLitIC ls cs else none

/-- Matcher for `\bLIT\b` (IGNORECASE): both ends on word boundaries. -/
def wordMatcher (lit : String) : Matcher := fun prev s =>
  match matchLitIC lit.toList s with
  | none => none
  | some rest =>
      if boundary prev s.head? &&
          boundary ((s.take lit.length).getLast?) rest.head? then
        some ([], rest)
      else none

/-- Matcher for `\bLIT\w+\b` (IGNORECASE): the trailing `\w+` is the
maximal nonempty word-character run, after which the boundary holds. -/
def prependedWordMatcher (lit : String) : Matcher := fun prev s =>
  match matchLitIC lit.toList s with
  | none => none
  | some rest =>
      if boundary prev s.head? then
        let ws := rest.takeWhile isWordChar
        if ws.isEmpty then none
        else some ([], rest.drop ws.length)
      else none

/-- Matcher for `OPEN[^CLOSE]*CLOSE` (the `\x7b...\x7d`, `[...]`,
`<...>` code-syntax patterns). -/
def delimMatcher (openC closeC : Char) : Matcher := fun _ s =>
  match s with
  | c :: rest =>
      if c = openC then
        let body := rest.takeWhile (fun x => x ≠ closeC)
        match rest.drop body.length with
        | c' :: tail => if c' = closeC then some ([], tail) else none
        | [] => none
      else none
  | [] => none

/-- Matcher for `\bfunction\(` (IGNORECASE). -/
def functionCallMatcher : Matcher := fun prev s =>
  match matchLitIC "function(".toList s with
  | none => none
  | some rest => if boundary prev s.head? then some ([], rest) else none

/-- Matcher for `\bKEYWORD\s+` (IGNORECASE): keyword at a boundary
followed by a maximal nonempty whitespace run. -/
def keywordSpaceMatcher (lit : String) : Matcher := fun prev s =>
  match matchLitIC lit.toList s with
  | none => none
  | some rest =>
      if boundary prev s.head? then
        let ws := rest.takeWhile isSpaceChar
        if ws.isEmpty then none
        else some ([], rest.drop ws.length)
      else none

/-- Matcher for `\berror\s+code\s+\d+` (IGNORECASE). -/
def errorCodeMatcher : Matcher := fun prev s =>
  match matchLitIC "error".toList s with
  | none => none
  | some r1 =>
      if boundary prev s.head? then
        let ws1 := r1.takeWhile isSpaceChar
        if ws1.isEmpty then none
        else
          match matchLitIC "code".toList (r1.drop ws1.length) with
          | none => none
          | some r2 =>
              let ws2 := r2.takeWhile isSpaceChar
              if ws2.isEmpty then none
              else
                let ds := (r2.drop ws2.length).takeWhile Char.isDigit
                if ds.isEmpty then none
                else some ([], (r2.drop ws2.length).drop ds.length)
      else none

/-- Matcher for `\bsession\s+state\b` (IGNORECASE). -/
def sessionStateMatcher : Matcher := fun prev s =>
  match matchLitIC "session".toList s with
  | none => none
  | some r1 =>
      if boundary prev s.head? then
        let ws1 := r1.takeWhile isSpaceChar
        if ws1.isEmpty then none
        else
          match matchLitIC "state".toList (r1.drop ws1.length) with
          | none => none
          | some r2 =>
              if isWordOpt r2.head? then none else some ([], r2)
      else none

/-- The `FORBIDDEN_PATTERNS` passes of Step 1, applied in source order,
each deleting its matches. -/
def applyForbidden (t : List Char) : List Char :=
  let t := scanSub (prependedWordMatcher "initiate_") t
  let t := scanSub (prependedWordMatcher "collect_") t
  let t := scanSub (prependedWordMatcher "confirm_and_") t
  let t := scanSub (wordMatcher "search_web") t
  let t := scanSub (wordMatcher "get_current_datetime") t
  let t := scanSub (wordMatcher "get_location_info") t
  let t := scanSub (wordMatcher "send_email") t
  let t := scanSub (wordMatcher "send_sms") t
  let t := scanSub (wordMatcher "send_whatsapp") t
  let t := scanSub (wordMatcher "book_appointment") t
  let t := scanSub (wordMatcher "reschedule_appointment") t
  let t := scanSub (wordMatcher "cancel_appointment") t
  let t := scanSub (delimMatcher '\x7b' '\x7d') t
  let t := scanSub (delimMatcher '[' ']') t
  let t := scanSub (delimMatcher '<' '>') t
  let t := scanSub functionCallMatcher t
  let t := scanSub (keywordSpaceMatcher "await") t
  let t := scanSub (keywordSpaceMatcher "async") t
  let t := scanSub (keywordSpaceMatcher "return") t
  let t := scanSub (keywordSpaceMatcher "const") t
  let t := scanSub (keywordSpaceMatcher "let") t
  let t := scanSub (keywordSpaceMatcher "var") t
  let t := scanSub (wordMatcher "N8N") t
  let t := scanSub (wordMatcher "n8n") t
  let t := scanSub (wordMatcher "webhook") t
  let t := scanSub (wordMatcher "API") t
  let t := scanSub (wordMatcher "JSON") t
  let t := scanSub (wordMatcher "HTTP") t
  let t := scanSub (wordMatcher "REST") t
  let t := scanSub errorCodeMatcher t
  let t := scanSub sessionStateMatcher t
  let t := scanSub (wordMatcher "database") t
  let t := scanSub (wordMatcher "supabase") t
  let t := scanSub (wordMatcher "CRM") t
  let t := scanSub (wordMatcher "endpoint") t
  let t := scanSub (wordMatcher "payload") t
  let t := scanSub (wordMatcher "request") t
  scanSub (wordMatcher "response") t

end Sanitizer

namespace Sanitizer

/-- `\d{n}` (a fixed-length digit group): exactly `n` digits. -/
def takeDigits (n : Nat) (s : List Char) : Option (List Char × List Char) :=
  let d := s.take n
  if d.length = n && d.all Char.isDigit then some (d, s.drop n) else none

/-- A `[-.\s]` separator character. -/
def isSepChar (c : Char) : Bool := c = '-' || c = '.' || isSpaceChar c

/-- `[-.\s]?`, greedy with backtracking: prefer consuming a separator,
fall back to consuming nothing. -/
def withSep (s : List Char) (k : List Char → Option (List Char × List Char)) :
    Option (List Char × List Char) :=
  match s with
  | c :: rest =>
      if isSepChar c then
        match k rest with
        | some v => some v
        | none => k s
      else k s
  | [] => k []

/-- `\s?`, greedy with backtracking. -/
def withOptSpace (s : List Char) (k : List Char → Option (List Char × List Char)) :
    Option (List Char × List Char) :=
  match s with
  | c :: rest =>
      if isSpaceChar c then
        match k rest with
        | some v => some v
        | none => k s
      else k s
  | [] => k []

/-- `', '.join(list(group))`. -/
def spokenDigits : List Char → List Char
  | [] => []
  | [d] => [d]
  | d :: rest => d :: ',' :: ' ' :: spokenDigits rest

/-- The international replacement
`f"country code {country}, {area}, {first}, {last}"`. -/
def intlRep (country area first last : List Char) : List Char :=
  "country code ".toList ++ spokenDigits country ++ ", ".toList ++ spokenDigits area
    ++ ", ".toList ++ spokenDigits first ++ ", ".toList ++ spokenDigits last

/-- The tail of `pattern_intl` after `\+`, for one candidate length of
the greedy `(\d{1,3})` country group. -/
def intlTail (r0 : List Char) (clen : Nat) : Option (List Char × List Char) :=
  (takeDigits clen r0).bind fun p1 =>
    withSep p1.2 fun r2 =>
      (takeDigits 3 r2).bind fun p2 =>
        withSep p2.2 fun r3 =>
          (takeDigits 3 r3).bind fun p3 =>
            withSep p3.2 fun r4 =>
              (takeDigits 4 r4).map fun p4 =>
                (intlRep p1.1 p2.1 p3.1 p4.1, p4.2)

/-- `pattern_intl = \+(\d{1,3})[-.\s]?(\d{3})[-.\s]?(\d{3})[-.\s]?(\d{4})`,
country-group lengths tried greedily (3, then 2, then 1). -/
def intlMatcher : Matcher := fun _ s =>
  match s with
  | '+' :: r0 =>
      match intlTail r0 3 with
      | some v => some v
      | none =>
          match intlTail r0 2 with
          | some v => some v
          | none => intlTail r0 1
  | _ => none

/-- The US replacement `f"{area}, {first}, {last}"` (also used for the
bare 10-digit and, with two groups, the 7-digit local pattern). -/
def usRep (area first last : List Char) : List Char :=
  spokenDigits area ++ ", ".toList ++ spokenDigits first
    ++ ", ".toList ++ spokenDigits last

/-- `pattern_us = \((\d{3})\)\s?(\d{3})[-.\s]?(\d{4})`. -/
def usMatcher : Matcher := fun _ s =>
  match s with
  | '(' :: r0 =>
      (takeDigits 3 r0).bind fun p1 =>
        match p1.2 with
        | ')' :: r1 =>
            withOptSpace r1 fun r2 =>
              (takeDigits 3 r2).bind fun p2 =>
                withSep p2.2 fun r3 =>
                  (takeDigits 4 r3).map fun p3 =>
                    (usRep p1.1 p2.1 p3.1, p3.2)
        | _ => none
  | _ => none

/-- `pattern_plain = \b(\d{10})\b`, split 3/3/4 in the replacement. -/
def plain10Matcher : Matcher := fun prev s =>
  if isWordOpt prev then none
  else
    (takeDigits 10 s).bind fun p =>
      if isWordOpt p.2.head? then none
      else some (usRep (p.1.take 3) ((p.1.drop 3).take 3) (p.1.drop 6), p.2)

/-- The local replacement `f"{first}, {last}"`. -/
def localRep (first last : List Char) : List Char :=
  spokenDigits first ++ ", ".toList ++ spokenDigits last

/-- `pattern_local = \b(\d{3})[-.\s]?(\d{4})\b`. -/
def local7Matcher : Matcher := fun prev s =>
  if isWordOpt prev then none
  else
    (takeDigits 3 s).bind fun p1 =>
      withSep p1.2 fun r2 =>
        (takeDigits 4 r2).bind fun p2 =>
          if isWordOpt p2.2.head? then none
          else some (localRep p1.1 p2.1, p2.2)

/-- `format_phone_numbers_for_speech`: the four substitutions in order. -/
def format_phone_numbers_for_speech (t : List Char) : List Char :=
  let t := scanSub intlMatcher t
  let t := scanSub usMatcher t
  let t := scanSub plain10Matcher t
  scanSub local7Matcher t

/-- `[a-zA-Z0-9._%+-]` (the email local part). -/
def isLocalChar (c : Char) : Bool :=
  c.isAlphanum || c = '.' || c = '_' || c = '%' || c = '+' || c = '-'

/-- `[a-zA-Z0-9.-]` (the email domain part). -/
def isDomainChar (c : Char) : Bool := c.isAlphanum || c = '.' || c = '-'

/-- Python `str.replace(old, new)`: all non-overlapping occurrences,
left to right. -/
def strReplaceAux (old new : List Char) : Nat → List Char → List Char
  | 0, s => s
  | _ + 1, [] => []
  | fuel + 1, c :: rest =>
      if old.isPrefixOf (c :: rest) then
        new ++ strReplaceAux old new fuel ((c :: rest).drop old.length)
      else c :: strReplaceAux old new fuel rest

def strReplace (old new s : List Char) : List Char :=
  strReplaceAux old new (s.length + 1) s

/-- `re.sub(r'([a-z])([A-Z])', r'\1 \2', domain)`: a space between each
lowercase/uppercase pair, consuming both characters per match. -/
def camelSplit : List Char → List Char
  | [] => []
  | [a] => [a]
  | a :: b :: rest =>
      if a.isLower && b.isUpper then a :: ' ' :: b :: camelSplit rest
      else a :: camelSplit (b :: rest)

/-- The email replacement
`f"{local_spoken} at {domain_spoken} dot {tld}"`. -/
def emailRep (localPart dom tld : List Char) : List Char :=
  let localSpoken := strReplace ".".toList " dot ".toList localPart
  let d1 := camelSplit dom
  let d2 := strReplace "ai".toList "A I".toList d1
  let d3 := strReplace "AI".toList "A I".toList d2
  let d4 := strReplace ".".toList " dot ".toList d3
  localSpoken ++ " at ".toList ++ d4 ++ " dot ".toList ++ tld

/-- One candidate split of the greedy domain run at the dot at index `i`
of the text after `@`: `\.` consumes that dot, the tld is the maximal
alpha run after it (`[a-zA-Z]{2,}` then `\b` admits exactly that run),
and the trailing boundary must hold. -/
def trySplitAt (r1 : List Char) (i : Nat) : Option (List Char × List Char × List Char) :=
  if i = 0 then none
  else
    match r1.drop i with
    | '.' :: r2 =>
        let tld := r2.takeWhile (fun c => c.isAlpha)
        if 2 ≤ tld.length && !isWordOpt ((r2.drop tld.length).head?) then
          some (r1.take i, tld, r2.drop tld.length)
        else none
    | _ => none

/-- Indices of the dots in a character list, ascending. -/
def dotPositions (l : List Char) : List Nat :=
  (List.range l.length).filter (fun i => l.getD i ' ' = '.')

def firstSome {α : Type} (f : Nat → Option α) : List Nat → Option α
  | [] => none
  | i :: is =>
      match f i with
      | some v => some v
      | none => firstSome f is

/-- `pattern = \b([a-zA-Z0-9._%+-]+)@([a-zA-Z0-9.-]+)\.([a-zA-Z]{2,})\b`:
the local run is maximal (only it can be followed by `@`); the greedy
domain backtracks over the dots of its maximal run from the right. -/
def emailMatcher : Matcher := fun prev s =>
  let localRun := s.takeWhile isLocalChar
  if localRun.isEmpty then none
  else if !(boundary prev s.head?) then none
  else
    match s.drop localRun.length with
    | '@' :: r1 =>
        let domRun := r1.takeWhile isDomainChar
        (firstSome (trySplitAt r1) (dotPositions domRun).reverse).map
          fun p => (emailRep localRun p.1 p.2.1, p.2.2)
    | _ => none

/-- `format_emails_for_speech`. -/
def format_emails_for_speech (t : List Char) : List Char :=
  scanSub emailMatcher t

/-- `str.replace(char, replacement)` for a single character. -/
def replaceChar (c : Char) (rep : List Char) : List Char → List Char
  | [] => []
  | x :: xs => (if x = c then rep else [x]) ++ replaceChar c rep xs

/-- `re.sub(r'\s+', ' ', text)`: collapse whitespace runs to one space. -/
def collapseWsAux : Bool → List Char → List Char
  | _, [] => []
  | prevSpace, c :: rest =>
      if isSpaceChar c then
        if prevSpace then collapseWsAux true rest
        else ' ' :: collapseWsAux true rest
      else c :: collapseWsAux false rest

def collapseWs (s : List Char) : List Char := collapseWsAux false s

/-- Python `str.strip()`. -/
def pyStrip (s : List Char) : List Char :=
  ((s.dropWhile isSpaceChar).reverse.dropWhile isSpaceChar).reverse

/-- `remove_tts_unfriendly_chars`: the replacement table in source order,
then collapse and strip. -/
def remove_tts_unfriendly_chars (t : List Char) : List Char :=
  let t := replaceChar '#' " number ".toList t
  let t := replaceChar '@' " at ".toList t
  let t := replaceChar '$' " dollars ".toList t
  let t := replaceChar '%' " percent ".toList t
  let t := replaceChar '&' " and ".toList t
  let t := replaceChar '*' " ".toList t
  let t := replaceChar '_' " ".toList t
  let t := replaceChar '|' " ".toList t
  let t := replaceChar '~' " ".toList t
  let t := replaceChar '^' " ".toList t
  let t := replaceChar '\x60' " ".toList t
  let t := replaceChar '=' " equals ".toList t
  let t := replaceChar '+' " plus ".toList t
  pyStrip (collapseWs t)

/-- The characters removed outright by the Step 6 safety net. -/
def isMarkupChar (c : Char) : Bool :=
  c = '\x7b' || c = '\x7d' || c = '[' || c = ']' || c = '<' || c = '>'

def stripMarkup (t : List Char) : List Char := t.filter (fun c => !isMarkupChar c)

/-- The Step 6 trigger: `'\x7b' in text or '[' in text or '<' in text`. -/
def hasTemplateChar (t : List Char) : Bool :=
  t.contains '\x7b' || t.contains '[' || t.contains '<'

/-- `sanitize_for_tts` on characters: forbidden-pattern removal, phone
and email formatting, unfriendly-character replacement, whitespace
cleanup, and the final markup safety net. -/
def sanitizeChars (t : List Char) : List Char :=
  if t.isEmpty then []
  else
    let t1 := applyForbidden t
    let t2 := format_phone_numbers_for_speech t1
    let t3 := format_emails_for_speech t2
    let t4 := remove_tts_unfriendly_chars t3
    let t5 := pyStrip (collapseWs t4)
    if hasTemplateChar t5 then pyStrip (collapseWs (stripMarkup t5))
    else t5

/-- `sanitize_for_tts`. -/
def sanitize_for_tts (s : String) : String := ⟨sanitizeChars s.toList⟩

end Sanitizer

namespace Sanitizer

lemma mem_collapseWsAux (c : Char) :
    ∀ (l : List Char) (b : Bool), c ∈ collapseWsAux b l → c ∈ l ∨ c = ' ' := by
  intro l
  induction l with
  | nil => intro b h; simp [collapseWsAux] at h
  | cons x xs ih =>
      intro b h
      by_cases hsp : isSpaceChar x = true
      · rcases hb : b with _ | _
        · rw [collapseWsAux, hsp, if_pos rfl, hb] at h
          simp only [Bool.false_eq_true, if_false, List.mem_cons] at h
          rcases h with h | h
          · exact Or.inr h
          · rcases ih true h with h' | h'
            · exact Or.inl (List.mem_cons_of_mem _ h')
            · exact Or.inr h'
        · rw [collapseWsAux, hsp, if_pos rfl, hb] at h
          simp only [if_true] at h
          rcases ih true h with h' | h'
          · exact Or.inl (List.mem_cons_of_mem _ h')
          · exact Or.inr h'
      · rw [collapseWsAux] at h
        rw [if_neg hsp] at h
        rcases List.mem_cons.mp h with h | h
        · exact Or.inl (h ▸ List.mem_cons_self _ _)
        · rcases ih false h with h' | h'
          · exact Or.inl (List.mem_cons_of_mem _ h')
          · exact Or.inr h'

lemma mem_pyStrip (c : Char) (l : List Char) (h : c ∈ pyStrip l) : c ∈ l := by
  unfold pyStrip at h
  rw [List.mem_reverse] at h
  have h1 : c ∈ (l.dropWhile isSpaceChar).reverse :=
    (List.dropWhile_sublist _).mem h
  rw [List.mem_reverse] at h1
  exact (List.dropWhile_sublist _).mem h1

lemma not_markup_mem_stripMarkup (c : Char) (l : List Char)
    (hc : isMarkupChar c = true) : c ∉ stripMarkup l := by
  intro hmem
  have h := List.mem_filter.mp hmem
  rw [hc] at h
  simp at h

lemma safety_net_no_open_markup (t5 : List Char) (c : Char)
    (hc : c = '\x7b' ∨ c = '[' ∨ c = '<') :
    c ∉ (if hasTemplateChar t5 then pyStrip (collapseWs (stripMarkup t5)) else t5) := by
  have hmk : isMarkupChar c = true := by
    rcases hc with h | h | h <;> subst h <;> rfl
  have hnsp : c ≠ ' ' := by
    rcases hc with h | h | h <;> subst h <;> decide
  by_cases hb : hasTemplateChar t5 = true
  · rw [if_pos hb]
    intro hmem
    have h1 := mem_pyStrip c _ hmem
    rcases mem_collapseWsAux c _ false h1 with h2 | h2
    · exact not_markup_mem_stripMarkup c t5 hmk h2
    · exact hnsp h2
  · rw [if_neg hb]
    rw [hasTemplateChar] at hb
    simp only [Bool.or_eq_true, not_or] at hb
    intro hmem
    rcases hc with h | h | h <;> subst h
    · exact hb.1.1 (List.elem_eq_true_of_mem hmem)
    · exact hb.1.2 (List.elem_eq_true_of_mem hmem)
    · exact hb.2 (List.elem_eq_true_of_mem hmem)

lemma sanitizeChars_no_open_markup (t : List Char) (c : Char)
    (hc : c = '\x7b' ∨ c = '[' ∨ c = '<') : c ∉ sanitizeChars t := by
  unfold sanitizeChars
  by_cases he : t.isEmpty = true
  · rw [if_pos he]
    simp
  · rw [if_neg he]
    exact safety_net_no_open_markup _ c hc

set_option maxRecDepth 40000

/-- C7: for every input, the sanitized output contains none of the
characters `\x7b`, `[`, `<` — any that survive the main passes are
stripped outright by the final safety net — and in particular the
sanitized "Let me call initiate_booking for you" contains no occurrence
of the substring "initiate_". -/
theorem sanitize_strips_markup :
    (∀ s : String, '\x7b' ∉ (sanitize_for_tts s).toList
      ∧ '[' ∉ (sanitize_for_tts s).toList
      ∧ '<' ∉ (sanitize_for_tts s).toList)
    ∧ ConversationCtx.containsSub "initiate_".toList
        (sanitize_for_tts "Let me call initiate_booking for you").toList = false := by
  constructor
  · intro s
    exact ⟨sanitizeChars_no_open_markup s.toList _ (Or.inl rfl),
      sanitizeChars_no_open_markup s.toList _ (Or.inr (Or.inl rfl)),
      sanitizeChars_no_open_markup s.toList _ (Or.inr (Or.inr rfl))⟩
  · decide

/-- C6 counterexample: the sanitizer is not idempotent.  On
"web\x7bhook" the main passes leave the stray brace (no closing brace, so
the brace-pair pattern cannot fire), the Step 6 safety net strips it,
producing "webhook" — which a second pass deletes entirely via the
`\bwebhook\b` denylist entry. -/
theorem sanitize_not_idempotent :
    sanitize_for_tts "web\x7bhook" = "webhook"
    ∧ sanitize_for_tts (sanitize_for_tts "web\x7bhook") = ""
    ∧ sanitize_for_tts (sanitize_for_tts "web\x7bhook") ≠ sanitize_for_tts "web\x7bhook" := by
  refine ⟨by decide, by decide, by decide⟩

/-- C6 (amended): the sanitizer is idempotent on every input exercised by
the repository's sanitizer test cases (`test_sanitization`), the inputs
the specification's "for all tested inputs" refers to. -/
theorem sanitize_idempotent_on_tested_inputs :
    (sanitize_for_tts (sanitize_for_tts "Let me call initiate_booking for you") =
      sanitize_for_tts "Let me call initiate_booking for you")
    ∧ (sanitize_for_tts (sanitize_for_tts "I'll use collect_client_name to get that") =
      sanitize_for_tts "I'll use collect_client_name to get that")
    ∧ (sanitize_for_tts
        (sanitize_for_tts "\x7bclient_name\x7d is confirmed for \x7bbooking_date\x7d") =
      sanitize_for_tts "\x7bclient_name\x7d is confirmed for \x7bbooking_date\x7d")
    ∧ (sanitize_for_tts (sanitize_for_tts "Hello [user], your appointment is at <time>") =
      sanitize_for_tts "Hello [user], your appointment is at <time>")
    ∧ (sanitize_for_tts (sanitize_for_tts "+1-800-555-1234") =
      sanitize_for_tts "+1-800-555-1234")
    ∧ (sanitize_for_tts (sanitize_for_tts "(952) 333-8443") =
      sanitize_for_tts "(952) 333-8443")
    ∧ (sanitize_for_tts (sanitize_for_tts "8141995397") =
      sanitize_for_tts "8141995397")
    ∧ (sanitize_for_tts (sanitize_for_tts "Contact support@callwaitingai.dev") =
      sanitize_for_tts "Contact support@callwaitingai.dev")
    ∧ (sanitize_for_tts (sanitize_for_tts "Reach me at john.doe@company.com") =
      sanitize_for_tts "Reach me at john.doe@company.com")
    ∧ (sanitize_for_tts (sanitize_for_tts "The N8N webhook failed with error code 422") =
      sanitize_for_tts "The N8N webhook failed with error code 422")
    ∧ (sanitize_for_tts (sanitize_for_tts "Let me query the database via REST API") =
      sanitize_for_tts "Let me query the database via REST API") := by
  refine ⟨?_, ?_, ?_, ?_, ?_, ?_, ?_, ?_, ?_, ?_, ?_⟩ <;> decide

end Sanitizer
